import Mathlib

/-!
Verification of the folder-path resolution and interactive file-browsing /
download engine of the NOTES_BOT repository.

The definitions below are shallow embeddings of the Python sources:

* `bot.py`: `find_item_id_in_parent`, `resolve_path_to_id`,
  `list_items_interactive` (the sorted interactive file keyboard).
* `drive_utils.py`: `get_folder_id`, `list_items`, `download_file`.
* `handlers.py`: the subject-menu and file-menu rendering of
  `file_selection_command` / `button_handler`, the token lookup on
  button presses, and the points-awarding download branch.
* `bot_helpers.py` in the sources is a stray copy of `drive_utils.py`; the
  `busy_lock` decorator and `send_wait_message` coroutine that
  `handlers.py` imports from it are absent from the sources, so those two
  are modelled from the specification (they are marked as such below).

The remote Google Drive service is modelled as an oracle answering the
three query shapes the code issues (find folder by exact name, list a page
of children, fetch media), each of which can also fail with an HTTP error
code, mirroring `googleapiclient`'s `HttpError`.
-/

/-- A Drive item as returned in the `files(id, name)` field selection. -/
structure Item where
  id : String
  name : String
deriving DecidableEq

/-- One parent-child edge of the remote Drive tree, as seen by the queries
issued in `bot.py` (`'{parent}' in parents`, folder/file mime filter,
`trashed = false`). The list order models the arbitrary order in which the
remote API returns children. -/
structure Edge where
  parent : String
  isFolder : Bool
  trashed : Bool
  childId : String
  childName : String
deriving DecidableEq

/-- Python's `str.lower()` as used in `bot.py`'s query
`lower(name) = '{name.lower()}'`. -/
def lowerStr (s : String) : String :=
  ⟨s.data.map Char.toLower⟩

/-- Embedding of `bot.py:find_item_id_in_parent` over an `Edge` tree: among
the children of `parent_id` whose type matches `is_folder` and that are not
trashed, case-insensitively matching `name`, return the first match's id
(`files[0].get('id')`), or `none` when the result list is empty. -/
def find_item_id_in_parent (tree : List Edge) (name parent_id : String)
    (is_folder : Bool) : Option String :=
  ((tree.filter fun e =>
      e.parent == parent_id && e.isFolder == is_folder && !e.trashed &&
        lowerStr e.childName == lowerStr name).head?).map Edge.childId

/-- Embedding of `bot.py:resolve_path_to_id`: walk the segments in order,
calling `find_item_id_in_parent` for each; return `none` at the first
segment with no match, else the final folder id. -/
def resolve_path_to_id (tree : List Edge) (rootId : String) :
    List String → Option String
  | [] => some rootId
  | part :: rest =>
    match find_item_id_in_parent tree part rootId true with
    | none => none
    | some nextId => resolve_path_to_id tree nextId rest

/-- Ghost-instrumented variant of `resolve_path_to_id`: the second component
records, in order, every `find_item_id_in_parent` call issued, as a
`(parent_id, name)` pair.  The first component agrees with
`resolve_path_to_id` (see `resolve_path_to_id_traced_fst`). -/
def resolve_path_to_id_traced (tree : List Edge) (rootId : String) :
    List String → Option String × List (String × String)
  | [] => (some rootId, [])
  | part :: rest =>
    match find_item_id_in_parent tree part rootId true with
    | none => (none, [(rootId, part)])
    | some nextId =>
      let r := resolve_path_to_id_traced tree nextId rest
      (r.1, (rootId, part) :: r.2)

theorem resolve_path_to_id_traced_fst (tree : List Edge) (rootId : String)
    (segs : List String) :
    (resolve_path_to_id_traced tree rootId segs).1 =
      resolve_path_to_id tree rootId segs := by
  induction segs generalizing rootId with
  | nil => rfl
  | cons part rest ih =>
    simp only [resolve_path_to_id_traced, resolve_path_to_id]
    cases find_item_id_in_parent tree part rootId true with
    | none => rfl
    | some nextId => exact ih nextId

/-- Specification predicate: starting from `r`, every segment in turn has a
match under the current folder (via the source's `find_item_id_in_parent`),
ending at folder id `m`. -/
inductive ChainOk (tree : List Edge) : String → List String → String → Prop
  | nil (r : String) : ChainOk tree r [] r
  | cons {r nextId m : String} {s : String} {rest : List String} :
      find_item_id_in_parent tree s r true = some nextId →
      ChainOk tree nextId rest m →
      ChainOk tree r (s :: rest) m

/-- A tiny concrete tree used for concrete evaluations: the root folder
`"r"` has a single child folder named `"A"` with id `"a1"`, which in turn
has a child folder named `"B"` with id `"b1"`. -/
def exTree : List Edge :=
  [⟨"r", true, false, "a1", "A"⟩, ⟨"a1", true, false, "b1", "B"⟩]

example : resolve_path_to_id exTree "r" ["A", "B"] = some "b1" := by decide

example : resolve_path_to_id exTree "r" ["a", "b"] = some "b1" := by decide

example : resolve_path_to_id exTree "r" ["NOPE"] = none := by decide

example :
    resolve_path_to_id_traced exTree "r" ["A", "NOPE"] =
      (none, [("r", "A"), ("a1", "NOPE")]) := by decide

/-- Every successfully matching walk is returned by `resolve_path_to_id`:
if each segment in order has a match ending at `m`, the resolver returns
`some m`. -/
theorem resolve_path_to_id_of_chainOk {tree : List Edge} {r : String}
    {segs : List String} {m : String} (h : ChainOk tree r segs m) :
    resolve_path_to_id tree r segs = some m := by
  induction h with
  | nil r => rfl
  | cons hfind _ ih =>
    simp only [resolve_path_to_id]
    rw [hfind]
    exact ih

theorem resolve_cons_some {tree : List Edge} {r p nextId : String}
    {rest : List String}
    (h : find_item_id_in_parent tree p r true = some nextId) :
    resolve_path_to_id tree r (p :: rest) =
      resolve_path_to_id tree nextId rest := by
  simp only [resolve_path_to_id]
  rw [h]

theorem resolve_cons_none {tree : List Edge} {r p : String}
    {rest : List String}
    (h : find_item_id_in_parent tree p r true = none) :
    resolve_path_to_id tree r (p :: rest) = none := by
  simp only [resolve_path_to_id]
  rw [h]

theorem traced_cons_some {tree : List Edge} {r p nextId : String}
    {rest : List String}
    (h : find_item_id_in_parent tree p r true = some nextId) :
    resolve_path_to_id_traced tree r (p :: rest) =
      ((resolve_path_to_id_traced tree nextId rest).1,
        (r, p) :: (resolve_path_to_id_traced tree nextId rest).2) := by
  simp only [resolve_path_to_id_traced]
  rw [h]

theorem traced_cons_none {tree : List Edge} {r p : String}
    {rest : List String}
    (h : find_item_id_in_parent tree p r true = none) :
    resolve_path_to_id_traced tree r (p :: rest) = (none, [(r, p)]) := by
  simp only [resolve_path_to_id_traced]
  rw [h]

/-- Fail-fast: if the prefix `pre` resolves to folder `m` and the next
segment `s` has no match under `m`, then resolving `pre ++ s :: post`
fails, and the calls issued are exactly those for `pre` plus the single
failing call `(m, s)` — none for any segment of `post`. -/
theorem resolve_fail_fast {tree : List Edge} {r : String}
    {pre : List String} {s : String} {post : List String} {m : String}
    (hpre : (resolve_path_to_id_traced tree r pre).1 = some m)
    (hs : find_item_id_in_parent tree s m true = none) :
    resolve_path_to_id tree r (pre ++ s :: post) = none ∧
      (resolve_path_to_id_traced tree r (pre ++ s :: post)).2 =
        (resolve_path_to_id_traced tree r pre).2 ++ [(m, s)] := by
  induction pre generalizing r with
  | nil =>
    simp only [resolve_path_to_id_traced] at hpre
    cases hpre
    rw [List.nil_append, resolve_cons_none hs, traced_cons_none hs]
    simp [resolve_path_to_id_traced]
  | cons p pre ih =>
    cases hfind : find_item_id_in_parent tree p r true with
    | none =>
      rw [traced_cons_none hfind] at hpre
      simp at hpre
    | some nextId =>
      rw [traced_cons_some hfind] at hpre
      simp only at hpre
      have h2 := ih (r := nextId) hpre
      refine ⟨?_, ?_⟩
      · rw [List.cons_append, resolve_cons_some hfind]
        exact h2.1
      · rw [List.cons_append, traced_cons_some hfind,
          traced_cons_some hfind]
        simp only
        rw [h2.2, List.cons_append]

/-- C1 (amended): path resolution walks the segments in order and is
fail-fast — on success it returns the id reached by the chain of
`find_item_id_in_parent` matches, and at the first failing segment it
stops, issues no further remote calls, and returns `None` (the bare `none`
result does not carry the failed segment or its index). -/
theorem C1_resolve_fail_fast_in_order :
    (∀ (tree : List Edge) (r : String) (segs : List String) (m : String),
        ChainOk tree r segs m → resolve_path_to_id tree r segs = some m) ∧
    (∀ (tree : List Edge) (r : String) (pre : List String) (s : String)
        (post : List String) (m : String),
        (resolve_path_to_id_traced tree r pre).1 = some m →
        find_item_id_in_parent tree s m true = none →
        resolve_path_to_id tree r (pre ++ s :: post) = none ∧
          (resolve_path_to_id_traced tree r (pre ++ s :: post)).2 =
            (resolve_path_to_id_traced tree r pre).2 ++ [(m, s)]) :=
  ⟨fun _ _ _ _ h => resolve_path_to_id_of_chainOk h,
   fun _ _ _ _ _ _ hpre hs => resolve_fail_fast hpre hs⟩

/-- Witness for `C1_resolve_fail_fast_in_order` at a concrete tree: the
path `["A"]` resolves to `"a1"`, and `["A", "NOPE", "B"]` fails at index 1
having issued exactly the two calls `("r", "A")` and `("a1", "NOPE")` —
nothing for the trailing `"B"`. -/
theorem C1_witness :
    resolve_path_to_id exTree "r" ["A"] = some "a1" ∧
      (resolve_path_to_id exTree "r" (["A"] ++ "NOPE" :: ["B"]) = none ∧
        (resolve_path_to_id_traced exTree "r" (["A"] ++ "NOPE" :: ["B"])).2 =
          (resolve_path_to_id_traced exTree "r" ["A"]).2 ++ [("a1", "NOPE")]) :=
  ⟨C1_resolve_fail_fast_in_order.1 exTree "r" ["A"] "a1"
      (ChainOk.cons (by decide) (ChainOk.nil "a1")),
   C1_resolve_fail_fast_in_order.2 exTree "r" ["A"] "NOPE" ["B"] "a1"
      (by decide) (by decide)⟩

/-- C1 counterexample: the claim says the resolver "returns a failure
identifying the failed segment and its index"; in the code a failure is the
bare `None`.  Two resolutions failing at different indices (0 and 1, as the
differing call traces show) return the very same value, so the returned
failure identifies neither the failed segment nor its index. -/
theorem C1_counterexample :
    resolve_path_to_id exTree "r" ["NOPE"] = none ∧
      resolve_path_to_id exTree "r" ["A", "NOPE"] = none ∧
      resolve_path_to_id exTree "r" ["NOPE"] =
        resolve_path_to_id exTree "r" ["A", "NOPE"] ∧
      (resolve_path_to_id_traced exTree "r" ["NOPE"]).2.length ≠
        (resolve_path_to_id_traced exTree "r" ["A", "NOPE"]).2.length := by
  refine ⟨by decide, by decide, by decide, by decide⟩

/-- C9: resolving an empty segment list returns the root id unchanged and
issues no remote-tree calls (empty call trace). -/
theorem C9_empty_path_identity (tree : List Edge) (rootId : String) :
    resolve_path_to_id tree rootId [] = some rootId ∧
      resolve_path_to_id_traced tree rootId [] = (some rootId, []) :=
  ⟨rfl, rfl⟩

/-- An inline keyboard button: visible label and opaque callback payload. -/
structure Button where
  text : String
  callback_data : String
deriving DecidableEq

/-- The per-user ephemeral browse state kept in `context.user_data` by
`handlers.py`: the subject-token table `last_subject_names` and the
file-token table `last_file_names`, each stored as the insertion-ordered
pairs of a Python dict. -/
structure Session where
  last_subject_names : List (String × String)
  last_file_names : List (String × String)
deriving DecidableEq

/-- A Python dict built from key-value pairs in order (later pairs
overwrite earlier ones), read through `.get`: fold every pair into a
lookup function. -/
def pyDictIns (m : String → Option String) (p : String × String) :
    String → Option String :=
  fun k => if p.1 == k then some p.2 else m k

/-- Lookup in the dict built from `ps`, i.e. Python's
`{k: v for (k, v) in ps}.get(key)`. -/
def pyDictOf (ps : List (String × String)) : String → Option String :=
  ps.foldl pyDictIns (fun _ => none)

theorem foldl_pyDictIns_of_not_mem (ps : List (String × String))
    (m : String → Option String) (k : String)
    (h : ∀ p ∈ ps, p.1 ≠ k) : (ps.foldl pyDictIns m) k = m k := by
  induction ps generalizing m with
  | nil => rfl
  | cons p ps ih =>
    rw [List.foldl_cons, ih _ fun q hq => h q (List.mem_cons_of_mem p hq)]
    simp only [pyDictIns]
    rw [if_neg]
    simp only [beq_iff_eq]
    exact h p (List.mem_cons_self p ps)

theorem foldl_pyDictIns_of_mem (ps : List (String × String))
    (m : String → Option String) (k v : String)
    (hmem : (k, v) ∈ ps) (hnd : (ps.map Prod.fst).Nodup) :
    (ps.foldl pyDictIns m) k = some v := by
  induction ps generalizing m with
  | nil => cases hmem
  | cons p ps ih =>
    rw [List.map_cons, List.nodup_cons] at hnd
    rw [List.foldl_cons]
    rcases List.mem_cons.mp hmem with heq | htail
    · subst heq
      rw [foldl_pyDictIns_of_not_mem]
      · simp [pyDictIns]
      · intro q hq hqk
        apply hnd.1
        rw [← hqk]
        exact List.mem_map.mpr ⟨q, hq, rfl⟩
    · exact ih _ htail hnd.2

theorem pyDictOf_eq_some {ps : List (String × String)} {k v : String}
    (hmem : (k, v) ∈ ps) (hnd : (ps.map Prod.fst).Nodup) :
    pyDictOf ps k = some v :=
  foldl_pyDictIns_of_mem ps _ k v hmem hnd

theorem pyDictOf_eq_none {ps : List (String × String)} {k : String}
    (h : k ∉ ps.map Prod.fst) : pyDictOf ps k = none :=
  foldl_pyDictIns_of_not_mem ps _ k fun p hp hpk =>
    h (hpk ▸ List.mem_map_of_mem Prod.fst hp)

/-- Helper of `splitOnChar`: prepend character `a` to the first field of an
already-split remainder. -/
def splitConsAux (a : Char) : List (List Char) → List (List Char)
  | [] => [[a]]
  | h :: t => (a :: h) :: t

/-- Python's `str.split(sep)` for a one-character separator, over the
character list of the string: `"a:b".split(":") == ["a", "b"]`,
`":".split(":") == ["", ""]`. -/
def splitOnChar (c : Char) : List Char → List (List Char)
  | [] => [[]]
  | a :: rest =>
    if a == c then [] :: splitOnChar c rest
    else splitConsAux a (splitOnChar c rest)

/-- `query.data.split(":")` from `handlers.py:button_handler`. -/
def dataParts (d : String) : List String :=
  (splitOnChar ':' d.data).map fun l => ⟨l⟩

example : dataParts "subj:a1:notes" = ["subj", "a1", "notes"] := by decide

example : dataParts "dl::x" = ["dl", "", "x"] := by decide

theorem splitOnChar_of_not_mem {c : Char} {s : List Char} (h : c ∉ s) :
    splitOnChar c s = [s] := by
  induction s with
  | nil => rfl
  | cons a rest ih =>
    simp only [List.mem_cons, not_or] at h
    have hac : (a == c) = false := by
      simp only [beq_eq_false_iff_ne]
      exact fun hh => h.1 hh.symm
    simp only [splitOnChar, hac, Bool.false_eq_true, if_false, ih h.2,
      splitConsAux]

theorem splitOnChar_append {c : Char} {xs ys : List Char} (h : c ∉ xs) :
    splitOnChar c (xs ++ c :: ys) = xs :: splitOnChar c ys := by
  induction xs with
  | nil =>
    simp [splitOnChar]
  | cons a xs ih =>
    simp only [List.mem_cons, not_or] at h
    have hac : (a == c) = false := by
      simp only [beq_eq_false_iff_ne]
      exact fun hh => h.1 hh.symm
    simp only [List.cons_append, splitOnChar, hac, Bool.false_eq_true,
      if_false, List.append_eq, ih h.2, splitConsAux]

/-- The callback payload of a subject button in
`handlers.py:file_selection_command`: `f"subj:{s['id']}:{command_type}"`. -/
def subjData (id command_type : String) : String :=
  "subj:" ++ id ++ ":" ++ command_type

/-- The callback payload of a file button in `handlers.py:button_handler`:
`f"dl:{f['id']}"`. -/
def dlData (id : String) : String :=
  "dl:" ++ id

/-- Embedding of the subject-menu rendering of
`handlers.py:file_selection_command` (given the `subjects` listing already
fetched from Drive): filter out items with falsy names, store
`{s['id']: s['name']}` into `context.user_data['last_subject_names']`
(replacing the previous value wholesale), and build one button per valid
subject. -/
def renderSubjectMenu (sess : Session) (subjects : List Item)
    (command_type : String) : Session × List Button :=
  let valid_subjects := subjects.filter fun s => s.name ≠ ""
  ({ sess with
      last_subject_names := valid_subjects.map fun s => (s.id, s.name) },
   valid_subjects.map fun s => ⟨s.name, subjData s.id command_type⟩)

/-- Embedding of the file-menu rendering of the `subj` branch of
`handlers.py:button_handler`: store `{f['id']: f['name']}` into
`context.user_data['last_file_names']` (replacing the previous value
wholesale) and build one button per file. -/
def renderFileMenu (sess : Session) (files : List Item) :
    Session × List Button :=
  ({ sess with last_file_names := files.map fun f => (f.id, f.name) },
   files.map fun f => ⟨f.name, dlData f.id⟩)

/-- Token lookup of the `subj` branch of `handlers.py:button_handler`:
`subject_id = data_parts[1]`, then
`context.user_data.get('last_subject_names', {}).get(subject_id)`. -/
def subjLookup (sess : Session) (data : String) : Option String :=
  pyDictOf sess.last_subject_names ((dataParts data).getD 1 "")

/-- Token lookup of the `dl` branch of `handlers.py:button_handler`:
`file_id = data_parts[1]`, then
`context.user_data.get('last_file_names', {}).get(file_id)`. -/
def fileLookup (sess : Session) (data : String) : Option String :=
  pyDictOf sess.last_file_names ((dataParts data).getD 1 "")

theorem data_mk_append (a b : String) : a ++ b = ⟨a.data ++ b.data⟩ := by
  cases a
  cases b
  rfl

theorem dataParts_subjData {id ct : String} (hid : ':' ∉ id.data)
    (hct : ':' ∉ ct.data) : dataParts (subjData id ct) = ["subj", id, ct] := by
  have hdata : (subjData id ct).data =
      ['s', 'u', 'b', 'j'] ++ ':' :: (id.data ++ ':' :: ct.data) := by
    simp [subjData, String.data_append]
  rw [dataParts, hdata, splitOnChar_append (by decide),
    splitOnChar_append hid, splitOnChar_of_not_mem hct]
  rfl

theorem dataParts_dlData {id : String} (hid : ':' ∉ id.data) :
    dataParts (dlData id) = ["dl", id] := by
  have hdata : (dlData id).data = ['d', 'l'] ++ ':' :: id.data := by
    simp [dlData, String.data_append]
  rw [dataParts, hdata, splitOnChar_append (by decide),
    splitOnChar_of_not_mem hid]
  rfl

/-- C2: menu-token round-trip.  Under the assumptions that always hold for
Google Drive listings — item ids are pairwise distinct and contain no `':'`
(and the command type is one of the colon-free literals `notes` /
`assignments`) — every button of the rendered subject menu and of the
rendered file menu carries a token whose lookup, immediately after the
render, returns exactly the item the button was rendered for: the parsed
token is the item's id and the looked-up name is the item's name. -/
theorem C2_menu_token_round_trip
    (sess : Session) (subjects files : List Item) (ct : String)
    (hsub_nd : ((subjects.filter fun s => s.name ≠ "").map Item.id).Nodup)
    (hsub_colon : ∀ s ∈ subjects, ':' ∉ s.id.data)
    (hct : ':' ∉ ct.data)
    (hfil_nd : (files.map Item.id).Nodup)
    (hfil_colon : ∀ f ∈ files, ':' ∉ f.id.data) :
    ((renderSubjectMenu sess subjects ct).2 =
        (subjects.filter fun s => s.name ≠ "").map
          (fun s => ⟨s.name, subjData s.id ct⟩) ∧
      ∀ s ∈ subjects.filter fun s => s.name ≠ "",
        dataParts (subjData s.id ct) = ["subj", s.id, ct] ∧
        subjLookup (renderSubjectMenu sess subjects ct).1
            (subjData s.id ct) = some s.name) ∧
    ((renderFileMenu sess files).2 =
        files.map (fun f => ⟨f.name, dlData f.id⟩) ∧
      ∀ f ∈ files,
        dataParts (dlData f.id) = ["dl", f.id] ∧
        fileLookup (renderFileMenu sess files).1 (dlData f.id) =
          some f.name) := by
  refine ⟨⟨rfl, ?_⟩, ⟨rfl, ?_⟩⟩
  · intro s hs
    have hcolon : ':' ∉ s.id.data :=
      hsub_colon s (List.mem_of_mem_filter hs)
    have hparts := dataParts_subjData hcolon hct
    refine ⟨hparts, ?_⟩
    rw [subjLookup, hparts]
    have hkey : (["subj", s.id, ct].getD 1 "") = s.id := rfl
    rw [hkey]
    apply pyDictOf_eq_some (v := s.name)
    · exact List.mem_map_of_mem _ hs
    · have hunf : (renderSubjectMenu sess subjects ct).1.last_subject_names =
          (subjects.filter fun s => s.name ≠ "").map fun s =>
            (s.id, s.name) := rfl
      rw [hunf, List.map_map]
      exact hsub_nd
  · intro f hf
    have hparts := dataParts_dlData (hfil_colon f hf)
    refine ⟨hparts, ?_⟩
    rw [fileLookup, hparts]
    have hkey : (["dl", f.id].getD 1 "") = f.id := rfl
    rw [hkey]
    apply pyDictOf_eq_some (v := f.name)
    · exact List.mem_map_of_mem _ hf
    · have hunf : (renderFileMenu sess files).1.last_file_names =
          files.map fun f => (f.id, f.name) := rfl
      rw [hunf, List.map_map]
      exact hfil_nd

/-- Witness for `C2_menu_token_round_trip` at a concrete two-subject menu
and one-file menu. -/
theorem C2_witness :
    subjLookup
        (renderSubjectMenu ⟨[], []⟩ [⟨"a1", "DSA"⟩, ⟨"b1", "OS"⟩] "notes").1
        (subjData "a1" "notes") = some "DSA" ∧
      fileLookup (renderFileMenu ⟨[], []⟩ [⟨"f1", "unit1.pdf"⟩]).1
        (dlData "f1") = some "unit1.pdf" := by
  have h := C2_menu_token_round_trip ⟨[], []⟩ [⟨"a1", "DSA"⟩, ⟨"b1", "OS"⟩]
    [⟨"f1", "unit1.pdf"⟩] "notes" (by decide) (by decide) (by decide)
    (by decide) (by decide)
  exact ⟨(h.1.2 ⟨"a1", "DSA"⟩ (by decide)).2,
    (h.2.2 ⟨"f1", "unit1.pdf"⟩ (by decide)).2⟩

/-- C3 counterexample: re-rendering the subject menu does NOT make every
token of the previous menu yield `Missing`.  The table is keyed by Drive
id, so when the user re-issues the browse command and the same subject
(id `"a1"`) appears in the new menu, the old menu's token still resolves
to a subject name instead of `Missing` (`None`). -/
theorem C3_counterexample :
    subjLookup
        (renderSubjectMenu
          (renderSubjectMenu ⟨[], []⟩ [⟨"a1", "DSA"⟩] "notes").1
          [⟨"a1", "DSA"⟩] "notes").1
        (subjData "a1" "notes") = some "DSA" ∧
      some "DSA" ≠ (none : Option String) := by
  refine ⟨by decide, by decide⟩

/-- C3 (amended): rendering a new subject menu replaces the session's
subject-token table wholesale — the new table is exactly the new menu's
`id ↦ name` map, whatever the table held before — and a token of the
previously rendered menu yields `Missing` on lookup exactly when its
subject id does not occur among the new menu's subject ids; a stale token
whose id persists in the new menu resolves to the new menu's entry
instead. -/
theorem C3_token_staleness (sess : Session) (subjects : List Item)
    (ct ct' id : String)
    (hid : id ∉ (subjects.filter fun s => s.name ≠ "").map Item.id)
    (hcolon : ':' ∉ id.data) (hct : ':' ∉ ct.data) :
    (renderSubjectMenu sess subjects ct').1.last_subject_names =
        (subjects.filter fun s => s.name ≠ "").map
          (fun s => (s.id, s.name)) ∧
      subjLookup (renderSubjectMenu sess subjects ct').1
        (subjData id ct) = none := by
  refine ⟨rfl, ?_⟩
  rw [subjLookup, dataParts_subjData hcolon hct]
  have hkey : (["subj", id, ct].getD 1 "") = id := rfl
  rw [hkey]
  apply pyDictOf_eq_none
  have hunf : (renderSubjectMenu sess subjects ct').1.last_subject_names =
      (subjects.filter fun s => s.name ≠ "").map fun s =>
        (s.id, s.name) := rfl
  rw [hunf, List.map_map]
  exact hid

/-- Witness for `C3_token_staleness`: after the session's subject menu is
re-rendered over a listing that no longer contains subject id `"a1"`, the
old token `subj:a1:notes` yields `Missing` (`None`). -/
theorem C3_witness :
    subjLookup
        (renderSubjectMenu
          (renderSubjectMenu ⟨[], []⟩ [⟨"a1", "DSA"⟩] "notes").1
          [⟨"b1", "OS"⟩] "notes").1
        (subjData "a1" "notes") = none :=
  (C3_token_staleness (renderSubjectMenu ⟨[], []⟩ [⟨"a1", "DSA"⟩] "notes").1
    [⟨"b1", "OS"⟩] "notes" "notes" "a1" (by decide) (by decide)
    (by decide)).2

/-- The remote Drive service as seen by `drive_utils.py`: an oracle for the
three request shapes the module issues.  Each request either succeeds with
a result list or raises an `HttpError`, modelled as `Except` with the HTTP
status code as the error payload. -/
structure Service where
  folderByName : String → String → Except Nat (List Item)
  childrenPage : String → Bool → Nat → Except Nat (List Item)
  media : String → Except Nat (List Nat)

/-- Embedding of `drive_utils.py:get_folder_id`: issue the exact-name
folder query under `parent_id`; on `HttpError` the exception is caught
(logged) and `None` is returned; on success return `items[0]['id']` if the
result list is non-empty, else `None`. -/
def get_folder_id (service : Service) (parent_id folder_name : String) :
    Option String :=
  match service.folderByName parent_id folder_name with
  | .error _ => none
  | .ok items => items.head?.map Item.id

/-- Embedding of `drive_utils.py:list_items`: issue the children query
(folders if `item_type == "folders"`, else non-folders) with
`pageSize=100`; on `HttpError` return `[]`, else the single result page.
No `nextPageToken` is ever requested. -/
def list_items (service : Service) (parent_id : String)
    (item_type : String) : List Item :=
  match service.childrenPage parent_id (item_type == "folders") 100 with
  | .error _ => []
  | .ok files => files

/-- Embedding of `drive_utils.py:download_file`: fetch the media content;
on `HttpError` return `None`, else the buffered bytes. -/
def download_file (service : Service) (file_id : String) :
    Option (List Nat) :=
  match service.media file_id with
  | .error _ => none
  | .ok bytes => some bytes

/-- A service whose every request fails with HTTP status `code` —
the transport-fault scenario. -/
def errService (code : Nat) : Service :=
  ⟨fun _ _ => .error code, fun _ _ _ => .error code, fun _ => .error code⟩

/-- A healthy service over an empty Drive: every query succeeds and
returns no items. -/
def emptyService : Service :=
  ⟨fun _ _ => .ok [], fun _ _ _ => .ok [], fun _ => .ok []⟩

/-- C6 counterexample: a transport/API fault is NOT surfaced as a typed
`RemoteError` distinguishable from `NotFound` / empty-list — the
`HttpError` is swallowed inside `drive_utils.py` and the functions return
the very same values they return for a healthy service that finds
nothing. -/
theorem C6_counterexample :
    get_folder_id (errService 500) "p" "Notes" =
        get_folder_id emptyService "p" "Notes" ∧
      get_folder_id (errService 500) "p" "Notes" = none ∧
      list_items (errService 500) "p" "folders" =
        list_items emptyService "p" "folders" ∧
      list_items (errService 500) "p" "folders" = [] := by
  refine ⟨rfl, rfl, rfl, rfl⟩

/-- C6 (amended): every transport/API fault (any HTTP status, any
operation) is caught inside the `drive_utils` functions and collapsed to
the not-found-shaped result — `None` from `get_folder_id` and
`download_file`, `[]` from `list_items` — so callers receive the same
value as for a missing item or empty listing and report the "not found"
outcome, not a distinct transient-failure one. -/
theorem C6_remote_error_collapsed (code : Nat)
    (parent name fileId ty : String) :
    get_folder_id (errService code) parent name = none ∧
      list_items (errService code) parent ty = [] ∧
      download_file (errService code) fileId = none :=
  ⟨rfl, rfl, rfl⟩

/-- The full remote tree backing a healthy service: for every parent id,
the complete ordered listing of its folder children and non-folder
children. -/
structure Drive where
  children : String → Bool → List Item

/-- A healthy paginated service over the backing store `d`: a children
query returns the first `pageSize` items of the full listing (the API page
cap); the exact-name folder query scans the full folder listing. -/
def driveService (d : Drive) : Service where
  folderByName p n := .ok ((d.children p true).filter fun i => i.name == n)
  childrenPage p foldersOnly pageSize :=
    .ok ((d.children p foldersOnly).take pageSize)
  media _ := .ok []

/-- A parent with 101 identical folder children — one more than the page
cap. -/
def drive101 : Drive :=
  ⟨fun _ _ => List.replicate 101 ⟨"x", "y"⟩⟩

/-- C7 counterexample: `list_items` does not concatenate result pages — on
a parent with 101 children it returns only the 100-item first page, not
the full child sequence. -/
theorem C7_counterexample :
    (list_items (driveService drive101) "p" "folders").length = 100 ∧
      (drive101.children "p" true).length = 101 ∧
      list_items (driveService drive101) "p" "folders" ≠
        drive101.children "p" true := by
  refine ⟨?_, ?_, ?_⟩
  · simp [list_items, driveService, drive101]
  · simp [drive101]
  · intro h
    have hlen := congrArg List.length h
    simp [list_items, driveService, drive101] at hlen

/-- C7 (amended): `list_items` issues a single children query with
`pageSize=100` and returns exactly the first page — the first 100 items of
the full listing; the complete child sequence is returned precisely when
the parent has at most 100 children of the requested kind. -/
theorem C7_first_page_only (d : Drive) (parent ty : String)
    (h : (d.children parent (ty == "folders")).length ≤ 100) :
    list_items (driveService d) parent ty =
        (d.children parent (ty == "folders")).take 100 ∧
      list_items (driveService d) parent ty =
        d.children parent (ty == "folders") := by
  refine ⟨rfl, ?_⟩
  show (d.children parent (ty == "folders")).take 100 =
    d.children parent (ty == "folders")
  exact List.take_of_length_le h

/-- Witness for `C7_first_page_only` on a two-child drive. -/
theorem C7_witness :
    list_items
        (driveService ⟨fun _ _ => [⟨"a1", "CSE"⟩, ⟨"b1", "IT"⟩]⟩)
        "root" "folders" = [⟨"a1", "CSE"⟩, ⟨"b1", "IT"⟩] :=
  (C7_first_page_only ⟨fun _ _ => [⟨"a1", "CSE"⟩, ⟨"b1", "IT"⟩]⟩
    "root" "folders" (by decide)).2

/-- Embedding of the keyboard built in `bot.py:list_items_interactive`:
`for file in sorted(files, key=lambda x: x['name'])` — a stable sort by
name (modelled by `List.mergeSort`) — with one button per file whose
callback payload is the raw file id. -/
def list_items_interactive_keyboard (files : List Item) : List Button :=
  (files.mergeSort fun a b => decide (a.name ≤ b.name)).map
    fun f => ⟨f.name, f.id⟩

/-- C8 counterexample: the subject menu of
`handlers.py:file_selection_command` renders the service-returned order
unchanged — for a listing returned as `["B", "A"]` the button labels are
`["B", "A"]`, which is not sorted ascending. -/
theorem C8_counterexample :
    ((renderSubjectMenu ⟨[], []⟩ [⟨"1", "B"⟩, ⟨"2", "A"⟩] "notes").2.map
        Button.text) = ["B", "A"] ∧
      ¬ (["B", "A"] : List String).Pairwise (· ≤ ·) := by
  constructor
  · rfl
  · intro h
    have hBA : ("B" : String) ≤ "A" :=
      (List.pairwise_cons.mp h).1 "A" (List.mem_cons_self "A" [])
    rw [String.le_iff_toList_le] at hBA
    revert hBA
    decide

/-- C8 (amended): the `handlers.py` subject menu and file menu render the
items in the arbitrary order the service returned them (labels are exactly
the listing's names, unsorted), and only the interactive file keyboard of
`bot.py:list_items_interactive` sorts its labels lexicographically,
case-sensitive, ascending, before rendering. -/
theorem C8_display_ordering :
    (∀ (sess : Session) (subjects : List Item) (ct : String),
        (renderSubjectMenu sess subjects ct).2.map Button.text =
          (subjects.filter fun s => s.name ≠ "").map Item.name) ∧
    (∀ (sess : Session) (files : List Item),
        (renderFileMenu sess files).2.map Button.text =
          files.map Item.name) ∧
    (∀ files : List Item,
        ((list_items_interactive_keyboard files).map Button.text).Pairwise
          (· ≤ ·)) := by
  refine ⟨?_, ?_, ?_⟩
  · intro sess subjects ct
    rw [renderSubjectMenu, List.map_map]
    rfl
  · intro sess files
    rw [renderFileMenu, List.map_map]
    rfl
  · intro files
    rw [list_items_interactive_keyboard, List.map_map, List.pairwise_map]
    have h := @List.sorted_mergeSort Item
      (fun a b : Item => decide (a.name ≤ b.name))
      (fun a b c hab hbc => by
        simp only [decide_eq_true_eq] at hab hbc ⊢
        exact le_trans hab hbc)
      (fun a b => by
        simp only [Bool.or_eq_true, decide_eq_true_eq]
        exact le_total a.name b.name)
      files
    exact h.imp fun hab => by
      simp only [decide_eq_true_eq] at hab
      exact hab

/-- The state read and written by the `dl` branch of
`handlers.py:button_handler`: the (possibly unavailable) Drive service,
the per-user session, and the user's persisted points counter
(`data.points` in the `user_data` collection). -/
structure DlEnv where
  service : Option Service
  sess : Session
  points : Nat

/-- Outcome of the `dl` branch: token lookup failed ("Sorry, something
went wrong"), download failed ("failed to download"), or the document was
sent. -/
inductive DlOutcome
  | badToken
  | sendFailed (file_name : String)
  | sent (file_name : String)
deriving DecidableEq

/-- Embedding of the `dl` branch of `handlers.py:button_handler`: first
the points counter is incremented (`$inc data.points 1`, upsert), then
`file_id = data_parts[1]` is looked up in `last_file_names`; on a miss the
branch stops; otherwise the content is fetched
(`download_file(service, file_id) if service else None`) and either sent
or reported as failed. -/
def fetchContent (service : Option Service) (file_id : String) :
    Option (List Nat) :=
  match service with
  | none => none
  | some svc => download_file svc file_id

def dl_branch (env : DlEnv) (data : String) : Nat × DlOutcome :=
  let points := env.points + 1
  let file_id := (dataParts data).getD 1 ""
  match pyDictOf env.sess.last_file_names file_id with
  | none => (points, .badToken)
  | some file_name =>
    match fetchContent env.service file_id with
    | none => (points, .sendFailed file_name)
    | some _ => (points, .sent file_name)

/-- C10: on every `dl` button press the per-user points counter is
incremented exactly once, on every path of the branch — including the path
where the token lookup yields `Missing` and the paths where the service is
unavailable or the download fails. -/
theorem C10_points_incremented_on_every_path (env : DlEnv) (data : String) :
    (dl_branch env data).1 = env.points + 1 := by
  simp only [dl_branch]
  cases pyDictOf env.sess.last_file_names ((dataParts data).getD 1 "") with
  | none => rfl
  | some file_name =>
    cases fetchContent env.service ((dataParts data).getD 1 "") with
    | none => rfl
    | some _ => rfl

/-- Modelled from the spec: the `busy_lock` decorator that `handlers.py`
imports from `bot_helpers` is absent from the sources (`bot_helpers.py` is
a stray copy of `drive_utils.py`), so the per-user busy flag is modelled
from spec §4.4/§5: a non-blocking per-user mutex — an arriving request
while the flag is held is rejected immediately, otherwise the flag is set
before the handler body (and its network calls) starts; completion of the
body, successful or not, clears the flag unconditionally.  An event is an
arriving browse command / button press, or the completion of the in-flight
operation. -/
inductive BusyEvent
  | request
  | finish (ok : Bool)
deriving DecidableEq

/-- Observable effect of one busy-lock step: the handler body started (a
remote-tree traversal begins), the request was bounced with the "please
wait" notice, or the in-flight operation completed. -/
inductive BusyOutput
  | started
  | pleaseWait
  | completed (ok : Bool)
deriving DecidableEq

/-- Modelled from the spec: one step of the busy-lock state machine; the
state is the per-user busy flag. -/
def busyStep (busy : Bool) : BusyEvent → Bool × BusyOutput
  | .request => if busy then (busy, .pleaseWait) else (true, .started)
  | .finish ok => (false, .completed ok)

/-- Run the busy-lock machine over a sequence of events, collecting the
outputs. -/
def busyRun (busy : Bool) : List BusyEvent → List BusyOutput
  | [] => []
  | e :: es => (busyStep busy e).2 :: busyRun (busyStep busy e).1 es

def isStarted : BusyOutput → Bool
  | .started => true
  | _ => false

def isFinish : BusyEvent → Bool
  | .finish _ => true
  | _ => false

theorem busyRun_started_bound (evs : List BusyEvent) (busy : Bool) :
    ((busyRun busy evs).filter isStarted).length ≤
      (evs.filter isFinish).length + (if busy then 0 else 1) := by
  induction evs generalizing busy with
  | nil => simp [busyRun]
  | cons e es ih =>
    cases e with
    | request =>
      cases busy with
      | true =>
        have h := ih true
        simp [busyRun, busyStep, isStarted, isFinish] at h ⊢
        omega
      | false =>
        have h := ih true
        simp [busyRun, busyStep, isStarted, isFinish] at h ⊢
        omega
    | finish ok =>
      have h := ih false
      cases busy with
      | true =>
        simp [busyRun, busyStep, isStarted, isFinish] at h ⊢
        omega
      | false =>
        simp [busyRun, busyStep, isStarted, isFinish] at h ⊢
        omega

/-- C4: busy-flag exclusion (modelled from the spec, since `busy_lock` is
missing from the sources).  (1) A request arriving while the user's flag
is held is answered immediately with the "please wait" notice, leaves the
flag held, and starts no handler body (no second remote-tree traversal);
(2) completion of the in-flight operation — success or failure — clears
the flag unconditionally; (3) a request finding the flag clear sets it and
starts the handler body; (4) single-flight: over any event sequence the
number of started traversals never exceeds the number of completions plus
the one slot available when the flag starts clear. -/
theorem C4_busy_flag_exclusion :
    busyStep true BusyEvent.request = (true, BusyOutput.pleaseWait) ∧
      (∀ (busy ok : Bool),
        (busyStep busy (BusyEvent.finish ok)).1 = false) ∧
      busyStep false BusyEvent.request = (true, BusyOutput.started) ∧
      (∀ (evs : List BusyEvent) (busy : Bool),
        ((busyRun busy evs).filter isStarted).length ≤
          (evs.filter isFinish).length + (if busy then 0 else 1)) :=
  ⟨rfl, fun _ _ => rfl, rfl, fun evs busy => busyRun_started_bound evs busy⟩

/-- Modelled from the spec: a message observable by the user during the
download pipeline — the delayed "still waiting" notice of
`send_wait_message` (absent from the sources; `handlers.py` starts it as a
task and cancels it in a `finally` once the fetch settles), or the final
outcome (document sent / failure notice). -/
inductive Msg
  | stillWaiting
  | outcome (ok : Bool)
deriving DecidableEq

/-- Status of the notifier task.  The task body is modelled from the spec
(`send_wait_message` is absent from the sources): wait out a fixed delay,
then send one "still waiting" message — unless cancelled first. -/
inductive NotifierStatus
  | notCreated
  | pending (delayLeft : Nat)
  | fired
  | cancelled
deriving DecidableEq

/-- State of the download pipeline's concurrency: the notifier task, the
wall clock, and the ordered messages sent so far. -/
structure AsyncState where
  notifier : NotifierStatus
  clock : Nat
  msgs : List Msg
deriving DecidableEq

/-- The atomic actions of the `dl` branch of `handlers.py:button_handler`
under asyncio's single-threaded cooperative scheduler: creating the
notifier task, a blocking synchronous call of a given duration (the event
loop cannot run any task during it), an `await` of a given duration (the
only points where the event loop regains control and can run the
notifier), cancelling the notifier, and sending the outcome message. -/
inductive DlAction
  | createNotifier (delay : Nat)
  | syncWork (t : Nat)
  | awaitPoint (t : Nat)
  | cancelNotifier
  | sendOutcome (ok : Bool)
deriving DecidableEq

/-- One action under the cooperative scheduler.  Wall time passes during
both `syncWork` and `awaitPoint`, counting down the notifier's deadline,
but only at an `awaitPoint` does the event loop get control: a pending,
uncancelled notifier whose delay has elapsed fires there, exactly once.
`cancelNotifier` on a still-pending task prevents it from ever firing
(`task.cancel()` runs synchronously in the parent, before the loop can
schedule the task), and is a no-op on a task that already fired. -/
def runAction (s : AsyncState) : DlAction → AsyncState
  | .createNotifier delay => { s with notifier := .pending delay }
  | .syncWork t =>
    match s.notifier with
    | .pending delayLeft =>
      { s with clock := s.clock + t, notifier := .pending (delayLeft - t) }
    | _ => { s with clock := s.clock + t }
  | .awaitPoint t =>
    match s.notifier with
    | .pending delayLeft =>
      if delayLeft ≤ t then
        { s with
            clock := s.clock + t,
            notifier := .fired,
            msgs := s.msgs ++ [.stillWaiting] }
      else
        { s with clock := s.clock + t, notifier := .pending (delayLeft - t) }
    | _ => { s with clock := s.clock + t }
  | .cancelNotifier =>
    match s.notifier with
    | .pending _ => { s with notifier := .cancelled }
    | _ => s
  | .sendOutcome ok => { s with msgs := s.msgs ++ [.outcome ok] }

/-- Run a sequence of actions from a state. -/
def runActions (s : AsyncState) (acts : List DlAction) : AsyncState :=
  acts.foldl runAction s

/-- Initial state: no notifier task exists, nothing sent. -/
def asyncInit : AsyncState :=
  ⟨.notCreated, 0, []⟩

/-- The action sequence actually executed by the `dl` branch of
`handlers.py` (lines 545-557) for a fetch of `f` ticks and a notifier
delay of `d` ticks: the "preparing" edit is awaited, the notifier task is
created, then `get_drive_service()` and `download_file(...)` run
synchronously — no `await` occurs between `asyncio.create_task` and the
`finally` — the `finally` cancels the task, and the outcome (document or
failure notice) is awaited and sent. -/
def dl_branch_actions (f d : Nat) (ok : Bool) : List DlAction :=
  [.awaitPoint 1, .createNotifier d, .syncWork f, .cancelNotifier,
   .awaitPoint 1, .sendOutcome ok]

/-- Sanity of the scheduler model: the notifier genuinely can fire.  Had
the `dl` branch awaited (for at least the delay) between creating the
task and cancelling it, the "still waiting" message would be sent. -/
theorem notifier_fires_at_awaitPoint (d t : Nat) (h : d ≤ t) :
    (runActions asyncInit
        [.createNotifier d, .awaitPoint t, .cancelNotifier]).msgs =
      [Msg.stillWaiting] := by
  simp [runActions, runAction, asyncInit, h]

/-- C5: the delayed notifier of the `dl` branch is dead code.  Because
`handlers.py` runs the content fetch synchronously, with no `await`
between `asyncio.create_task(send_wait_message(...))` and
`wait_task.cancel()`, the event loop never runs the notifier task before
it is cancelled: for every fetch duration `f` and every delay `d` — in
particular whenever the fetch outlasts the delay — the task ends
cancelled without firing, no "still waiting" message is ever sent, and
the messages are exactly the final outcome. -/
theorem C5_notifier_never_fires (f d : Nat) (ok : Bool) :
    runActions asyncInit (dl_branch_actions f d ok) =
        ⟨.cancelled, f + 2, [Msg.outcome ok]⟩ ∧
      Msg.stillWaiting ∉
        (runActions asyncInit (dl_branch_actions f d ok)).msgs := by
  have h : runActions asyncInit (dl_branch_actions f d ok) =
      ⟨.cancelled, f + 2, [Msg.outcome ok]⟩ := by
    simp [runActions, runAction, asyncInit, dl_branch_actions]
    omega
  refine ⟨h, ?_⟩
  rw [h]
  simp

example :
    (runActions asyncInit (dl_branch_actions 10 2 true)).msgs =
      [Msg.outcome true] := by decide

example : Msg.stillWaiting ∉
    (runActions asyncInit (dl_branch_actions 10 2 true)).msgs := by decide
